import Mathlib

/-!
# dashcache: the range cache in front of a Prometheus backend

A shallow embedding of `src/main.go`: the query descriptor and its
informational key, `chop`, `appendData`, the lookup of `cacheCheck`, the
backend call `proxy` and the orchestration `handleRangeRequest`.

Conventions of the embedding.

* Go `int` values are `Int`; the one subtraction of the program
  (`spec.End-spec.Start`) is wrapped to 64 bits by `wrap64`.
* A value point `[]interface{}` is read by the program only through
  `int(value[0].(float64))`; a `Point` carries that integer second as `ts`
  and the remaining payload as `val`.
* The package `response` is imported by `main.go` and defined elsewhere; its
  types are rebuilt from the fields `main.go` touches and `Metric.Key()` is
  a parameter `key` of every definition that calls it.
* Library calls (URL parsing, number parsing, JSON decoding, HTTP, SQL
  execution) are parameters collected in `Env` and `DB`.
* A pointer mutated in place becomes a value returned by the function.
-/

namespace Dashcache

/-! ## Data model -/

/-- A sample of a series: `ts` is `int(value[0].(float64))`, the only part of
the point the program inspects; `val` is the rest of the point. -/
structure Point where
  ts : Int
  val : String
deriving DecidableEq, Repr

/-- Label set of a series (`response.Metric`). -/
abbrev Metric := List (String × String)

/-- Modelled from the spec: the element type of `Data.Result` in the package
`response`, whose declaration is not in `main.go`; a series has a label
mapping and an ordered sequence of points. -/
structure Series where
  Metric : Metric
  Values : List Point
deriving DecidableEq, Repr

/-- Modelled from the spec: the `data` object of `response.PromResponse`. -/
structure PromData where
  ResultType : String
  Result : List Series
deriving DecidableEq, Repr

/-- Modelled from the spec: `response.PromResponse`, with the fields
`Status`, `Data.ResultType` and `Data.Result` that `main.go` reads. -/
structure PromResponse where
  Status : String
  Data : PromData
deriving DecidableEq, Repr

/-- The struct `QuerySpec` of `main.go`; `Step` is a `time.Duration`, an
integer count of nanoseconds. -/
structure QuerySpec where
  Query : String
  Start : Int
  End : Int
  Step : Int
deriving DecidableEq, Repr

/-- Errors the program produces or passes on. -/
inductive Err where
  /-- The error "head and tail status don't match" of `appendData`. -/
  | statusMismatch
  /-- The error "head and tail result type don't match" of `appendData`. -/
  | resultTypeMismatch
  /-- The value `sql.ErrNoRows`. -/
  | noRows
  /-- Any other error of `row.Scan`. -/
  | storeFailure
  /-- Failure of `json.Unmarshal` or of `json.Decoder.Decode`. -/
  | undecodable
  /-- The error "non-200 status code" of `proxy`. -/
  | non200
  /-- Failure of `http.Get`. -/
  | transport
  /-- An error of `url.ParseRequestURI`, `strconv.ParseFloat` or
  `time.ParseDuration`. -/
  | malformed
deriving DecidableEq, Repr

/-! ## `QuerySpec.Key` -/

/-- Go integer division by a positive constant truncates toward zero. -/
def goDiv (a b : Int) : Int := Int.tdiv a b

/-- The method `(*QuerySpec).Key`, lines 36-41. The receiver is copied into
`val` and only the copy is assigned to; the result pairs the returned string
with the receiver as it stands when the method returns. `durationString` is
`time.Duration.String`, the `%s` rendering of `this.Step`. -/
def QuerySpec.Key (durationString : Int → String) (this : QuerySpec) : String × QuerySpec :=
  let val := this
  let val := { val with Start := goDiv val.Start 60 * 60 }
  let val := { val with End := goDiv val.Start 60 * 60 }
  (val.Query ++ "-" ++ toString val.Start ++ "-" ++ toString val.End ++ "-" ++
    durationString this.Step, this)

/-! ## `chop` -/

/-- The inner loop of `chop`, lines 160-166: index of the first point whose
timestamp is at least `start`; `none` is the sentinel `-1`. -/
def firstIndex (start : Int) : List Point → Option Nat
  | [] => none
  | value :: rest =>
    if value.ts ≥ start then some 0 else (firstIndex start rest).map (· + 1)

/-- The body of the outer loop of `chop`, lines 159-170, for one series. -/
def chopSeries (start : Int) (result : Series) : Series :=
  match firstIndex start result.Values with
  | some first => { result with Values := result.Values.drop first }
  | none => result

/-- The function `chop`, lines 157-172; the mutated `promData` is returned. -/
def chop (promData : PromResponse) (start : Int) : PromResponse :=
  { promData with
    Data := { promData.Data with Result := promData.Data.Result.map (chopSeries start) } }

/-! ## `appendData` -/

/-- The map `headmap` built by lines 186-189: a later series with the same key
overwrites an earlier one. -/
def headmap (key : Metric → String) (result : List Series) : String → Option (List Point) :=
  result.foldl (fun m val => fun k => if k = key val.Metric then some val.Values else m k)
    (fun _ => none)

/-- The body of the second loop of `appendData`, lines 191-194, for one series
of `tail`. -/
def appendSeries (key : Metric → String) (hm : String → Option (List Point)) (val : Series) :
    Series :=
  match hm (key val.Metric) with
  | some newMetric => { val with Values := val.Values ++ newMetric }
  | none => val

/-- The function `appendData`, lines 177-197; the mutated `tail` is the
returned response. -/
def appendData (key : Metric → String) (head tail : PromResponse) : Except Err PromResponse :=
  if head.Status ≠ tail.Status then .error .statusMismatch
  else if head.Data.ResultType ≠ tail.Data.ResultType then .error .resultTypeMismatch
  else
    .ok { tail with
          Data := { tail.Data with
                    Result := tail.Data.Result.map (appendSeries key (headmap key head.Data.Result)) } }

/-! ## The range store: table `query_cache` -/

/-- A row of the table `query_cache`: columns `query`, `step`, `tsrange`
(a half-open integer range `[lo,hi)`) and `body`. -/
structure CacheEntry where
  query : String
  step : Int
  lo : Int
  hi : Int
  body : String
deriving DecidableEq, Repr

/-- The database handle `db`: the rows of `query_cache`, and whether a
`QueryRow`/`Scan` or an `Exec` on it fails for a reason of its own (lost
connection, missing table). -/
structure DB where
  rows : List CacheEntry
  queryFails : Bool
  execFails : Bool
deriving DecidableEq, Repr

/-- The range operator `a && b` of PostgreSQL on half-open ranges: the two
ranges have a point in common; an empty range overlaps nothing. -/
def overlaps (alo ahi blo bhi : Int) : Prop :=
  alo < ahi ∧ blo < bhi ∧ alo < bhi ∧ blo < ahi

instance (alo ahi blo bhi : Int) : Decidable (overlaps alo ahi blo bhi) := by
  unfold overlaps; infer_instance

/-- The range operator `a &< b` of PostgreSQL, "a does not extend to the right
of b": both ranges are non-empty and the upper bound of `a` is at most that of
`b`. -/
def notRightOf (alo ahi blo bhi : Int) : Prop :=
  alo < ahi ∧ blo < bhi ∧ ahi ≤ bhi

instance (alo ahi blo bhi : Int) : Decidable (notRightOf alo ahi blo bhi) := by
  unfold notRightOf; infer_instance

/-- The range operator `a <> b` of PostgreSQL on non-empty half-open integer
ranges: the bounds differ. -/
def rangeNe (alo ahi blo bhi : Int) : Prop :=
  ¬ (alo = blo ∧ ahi = bhi)

instance (alo ahi blo bhi : Int) : Decidable (rangeNe alo ahi blo bhi) := by
  unfold rangeNe; infer_instance

/-- The `where` clause of the query of `cacheCheck`, line 207:
`query = $1 and step = $2 and tsrange &< $3 and tsrange && $3 and tsrange <> $3`
with `$1 = spec.Query`, `$2 = spec.Step`, `$3 = [spec.Start,spec.End)`. -/
def matchesWhere (spec : QuerySpec) (row : CacheEntry) : Prop :=
  row.query = spec.Query ∧ row.step = spec.Step ∧
  notRightOf row.lo row.hi spec.Start spec.End ∧
  overlaps row.lo row.hi spec.Start spec.End ∧
  rangeNe row.lo row.hi spec.Start spec.End

instance (spec : QuerySpec) (row : CacheEntry) : Decidable (matchesWhere spec row) := by
  unfold matchesWhere; infer_instance

/-- The order of PostgreSQL on ranges, used by `order by tsrange`: lower
bounds are compared first, upper bounds only when the lower bounds are
equal. -/
def rangeLt (a b : CacheEntry) : Prop :=
  a.lo < b.lo ∨ (a.lo = b.lo ∧ a.hi < b.hi)

instance (a b : CacheEntry) : Decidable (rangeLt a b) := by
  unfold rangeLt; infer_instance

/-- The clause `order by tsrange desc limit 1`: a row that no other row
exceeds in the range order; among rows with the same range the earliest in the
table is taken. -/
def topRow : List CacheEntry → Option CacheEntry
  | [] => none
  | row :: rest =>
    match topRow rest with
    | none => some row
    | some best => if rangeLt row best then some best else some row

/-- The row that `db.QueryRow(query, spec.Query, spec.Step, rng)` yields,
lines 207-210. -/
def queryRow (rows : List CacheEntry) (spec : QuerySpec) : Option CacheEntry :=
  topRow (rows.filter (fun row => decide (matchesWhere spec row)))

/-! ## Environment: flags and library calls -/

/-- The flags of the process and the library functions the program calls.
`parseRequestURI` is `url.ParseRequestURI` followed by `u.Query()`, giving
the getter `q.Get`; `parseFloatInt t` is `int(f)` for the `f` that
`strconv.ParseFloat(t, 64)` returns; `httpGet uri` is
`http.Get(*backendProm + uri)`, giving the status code and the body. -/
structure Env where
  cache : Bool
  key : Metric → String
  parseRequestURI : String → Option (String → String)
  parseFloatInt : String → Option Int
  parseDuration : String → Option Int
  queryEscape : String → String
  decode : String → Option PromResponse
  httpGet : String → Option (Nat × String)

/-- Two's complement value of an integer held in a 64-bit Go `int`. -/
def wrap64 (n : Int) : Int := (n + 2 ^ 63) % 2 ^ 64 - 2 ^ 63

/-- The function `getSpec`, lines 121-153. -/
def getSpec (env : Env) (query : String) : Except Err QuerySpec :=
  match env.parseRequestURI query with
  | none => .error .malformed
  | some q =>
    let spec : QuerySpec := { Query := q "query", Start := 0, End := 0, Step := 0 }
    let withStart : Except Err QuerySpec :=
      if q "start" ≠ "" then
        match env.parseFloatInt (q "start") with
        | none => .error .malformed
        | some start => .ok { spec with Start := start }
      else .ok spec
    match withStart with
    | .error e => .error e
    | .ok spec =>
      let withEnd : Except Err QuerySpec :=
        if q "end" ≠ "" then
          match env.parseFloatInt (q "end") with
          | none => .error .malformed
          | some e => .ok { spec with End := e }
        else .ok spec
      match withEnd with
      | .error e => .error e
      | .ok spec =>
        if q "step" ≠ "" then
          let t := q "step"
          let t := if t.back.isDigit then t ++ "ns" else t
          match env.parseDuration t with
          | none => .error .malformed
          | some d => .ok { spec with Step := d }
        else .ok spec

/-- The function `cacheCheck`, lines 200-232. PostgreSQL rejects the range
text `[a,b)` when `a > b`, which `row.Scan` reports as an error; the column
`tsrange` comes back as the text `[lo,hi)` and lines 221-230 read `lo` and
`hi` back from it. -/
def cacheCheck (env : Env) (db : DB) (spec : QuerySpec) :
    Except Err (PromResponse × QuerySpec) :=
  if !env.cache then .error .noRows
  else if db.queryFails then .error .storeFailure
  else if spec.Start > spec.End then .error .storeFailure
  else
    match queryRow db.rows spec with
    | none => .error .noRows
    | some row =>
      match env.decode row.body with
      | none => .error .undecodable
      | some cachedProm => .ok (cachedProm, { spec with Start := row.lo, End := row.hi })

/-- The function `proxy`, lines 311-330. The second component is what the
call leaves in `cacheBuf`: the bytes read from the body when `capture` holds
(`cacheBuf != nil`), nothing otherwise. -/
def proxy (env : Env) (uri : String) (capture : Bool) : Except Err PromResponse × String :=
  match env.httpGet uri with
  | none => (.error .transport, "")
  | some (statusCode, body) =>
    if statusCode ≠ 200 then (.error .non200, "")
    else
      let buf := if capture then body else ""
      match env.decode body with
      | none => (.error .undecodable, buf)
      | some data => (.ok data, buf)

/-- The statement `db.Exec("INSERT INTO query_cache ...")`, lines 298-303:
the row is added unless the statement fails; PostgreSQL rejects a range whose
lower bound exceeds its upper bound. -/
def DB.exec (db : DB) (entry : CacheEntry) : DB :=
  if db.execFails ∨ entry.lo > entry.hi then db
  else { db with rows := db.rows ++ [entry] }

/-- What a call of `handleRangeRequest` does: the value it returns, the
`INSERT` statements it issued, in order, and the database afterwards. -/
structure Outcome where
  result : Except Err PromResponse
  inserts : List CacheEntry
  db : DB

/-- The text `fixupQuery` built at line 267. -/
def fixupQuery (env : Env) (fixupSpec : QuerySpec) : String :=
  "/api/v1/query_range?query=" ++ env.queryEscape fixupSpec.Query ++
  "&start=" ++ toString fixupSpec.Start ++ "&end=" ++ toString fixupSpec.End ++
  "&step=" ++ toString fixupSpec.Step

/-- The descriptor `fixupSpec` built at lines 260-265. -/
def fixupSpec (spec cachedSpec : QuerySpec) : QuerySpec :=
  { Step := spec.Step, Start := cachedSpec.End, End := spec.End, Query := spec.Query }

/-- The second half of `handleRangeRequest`, lines 283-309: the fetch of the
whole query and the write-back. -/
def fullFetch (env : Env) (db : DB) (query : String) (spec : QuerySpec) : Outcome :=
  match proxy env query true with
  | (.error e, _) => ⟨.error e, [], db⟩
  | (.ok promData, buf) =>
    if promData.Status ≠ "success" then ⟨.ok promData, [], db⟩
    else if promData.Data.ResultType ≠ "matrix" then ⟨.ok promData, [], db⟩
    else if wrap64 (spec.End - spec.Start) < 5 * 60 then ⟨.ok promData, [], db⟩
    else if env.cache then
      let entry : CacheEntry :=
        { query := spec.Query, step := spec.Step, lo := spec.Start, hi := spec.End, body := buf }
      ⟨.ok promData, [entry], db.exec entry⟩
    else ⟨.ok promData, [], db⟩

/-- The function `handleRangeRequest`, lines 234-309. -/
def handleRangeRequest (env : Env) (db : DB) (query : String) : Outcome :=
  match getSpec env query with
  | .error e => ⟨.error e, [], db⟩
  | .ok spec =>
    match cacheCheck env db spec with
    | .error _ => fullFetch env db query spec
    | .ok (cachedProm, cachedSpec) =>
      if spec = cachedSpec then ⟨.ok cachedProm, [], db⟩
      else
        let chopped := chop cachedProm spec.Start
        match (proxy env (fixupQuery env (fixupSpec spec cachedSpec)) false).1 with
        | .error e => ⟨.error e, [], db⟩
        | .ok fixupData =>
          match appendData env.key fixupData chopped with
          | .error _ => fullFetch env db query spec
          | .ok merged => ⟨.ok merged, [], db⟩

/-! ## The selection of the specification -/

/-- The selection as the specification words it: the candidate shares query
and step, starts at or before the requested start, overlaps the requested
range and differs from it. -/
def qualifiesAsSpecified (spec : QuerySpec) (row : CacheEntry) : Prop :=
  row.query = spec.Query ∧ row.step = spec.Step ∧ row.lo ≤ spec.Start ∧
  overlaps row.lo row.hi spec.Start spec.End ∧
  rangeNe row.lo row.hi spec.Start spec.End

instance (spec : QuerySpec) (row : CacheEntry) : Decidable (qualifiesAsSpecified spec row) := by
  unfold qualifiesAsSpecified; infer_instance

/-! ## A small world for examples -/

/-- A key function for examples: the labels written out one after another. -/
def exampleKey (m : Metric) : String :=
  String.join (m.map (fun kv => kv.1 ++ "=" ++ kv.2 ++ ";"))

/-- A delta response with a series `job=a` and a series `job=b`. -/
def exampleDelta : PromResponse :=
  ⟨"success", ⟨"matrix", [⟨[("job", "a")], [⟨600, "4"⟩, ⟨660, "5"⟩]⟩,
                           ⟨[("job", "b")], [⟨600, "9"⟩]⟩]⟩⟩

/-- A chopped candidate with the single series `job=a`. -/
def exampleCandidate : PromResponse :=
  ⟨"success", ⟨"matrix", [⟨[("job", "a")], [⟨300, "2"⟩, ⟨360, "3"⟩]⟩]⟩⟩

/-- A stored response for `[120,600)` with one series. -/
def exampleStored : PromResponse :=
  ⟨"success", ⟨"matrix", [⟨[("job", "a")],
    [⟨120, "1"⟩, ⟨240, "2"⟩, ⟨300, "2"⟩, ⟨360, "3"⟩]⟩]⟩⟩

/-- A stored response for `[0,800)`, with values that differ from what the
backend serves. -/
def exampleWide : PromResponse :=
  ⟨"success", ⟨"matrix", [⟨[("job", "a")],
    [⟨0, "70"⟩, ⟨300, "71"⟩, ⟨600, "72"⟩, ⟨720, "73"⟩]⟩]⟩⟩

/-- The backend's answer for `[800,900)`. -/
def exampleTail : PromResponse :=
  ⟨"success", ⟨"matrix", [⟨[("job", "a")], [⟨840, "6"⟩]⟩]⟩⟩

/-- The backend's answer for `[300,900)`. -/
def exampleFull : PromResponse :=
  ⟨"success", ⟨"matrix", [⟨[("job", "a")],
    [⟨300, "2"⟩, ⟨360, "3"⟩, ⟨600, "4"⟩, ⟨660, "5"⟩, ⟨840, "6"⟩]⟩,
    ⟨[("job", "b")], [⟨600, "9"⟩]⟩]⟩⟩

/-- The request for `[300,900)`. -/
def requestURI : String := "/api/v1/query_range?query=up&start=300&end=900&step=15s"

/-- The text `fixupQuery` for `[600,900)`. -/
def fixupURI : String := "/api/v1/query_range?query=up&start=600&end=900&step=15000000000"

/-- The text `fixupQuery` for `[800,900)`. -/
def secondFixupURI : String :=
  "/api/v1/query_range?query=up&start=800&end=900&step=15000000000"

/-- The getter `q.Get` of a parsed request with the given parameters. -/
def exampleGetter (start stop step : String) (name : String) : String :=
  if name = "query" then "up"
  else if name = "start" then start
  else if name = "end" then stop
  else if name = "step" then step
  else ""

/-- An environment with caching on, a backend that answers the three
requests above, and library functions tabulated on the texts that occur. -/
def exampleEnv : Env where
  cache := true
  key := exampleKey
  parseRequestURI := fun uri =>
    if uri = requestURI then some (exampleGetter "300" "900" "15s")
    else if uri = fixupURI then some (exampleGetter "600" "900" "15000000000")
    else if uri = secondFixupURI then some (exampleGetter "800" "900" "15000000000")
    else none
  parseFloatInt := fun t =>
    if t = "300" then some 300
    else if t = "600" then some 600
    else if t = "800" then some 800
    else if t = "900" then some 900
    else none
  parseDuration := fun t =>
    if t = "15s" then some 15000000000
    else if t = "15000000000ns" then some 15000000000
    else none
  queryEscape := fun q => q
  decode := fun body =>
    if body = "stored" then some exampleStored
    else if body = "wide" then some exampleWide
    else if body = "delta" then some exampleDelta
    else if body = "tail" then some exampleTail
    else if body = "full" then some exampleFull
    else none
  httpGet := fun uri =>
    if uri = requestURI then some (200, "full")
    else if uri = fixupURI then some (200, "delta")
    else if uri = secondFixupURI then some (200, "tail")
    else none

/-- The descriptor of `requestURI`. -/
def requestSpec : QuerySpec := ⟨"up", 300, 900, 15000000000⟩

/-- A table holding `[120,600)` and `[0,800)` for the query `up`. -/
def exampleDB : DB :=
  { rows := [⟨"up", 15000000000, 120, 600, "stored"⟩, ⟨"up", 15000000000, 0, 800, "wide"⟩],
    queryFails := false, execFails := false }

/-- An empty table. -/
def emptyDB : DB := { rows := [], queryFails := false, execFails := false }

/-! ## Facts about `QuerySpec.Key` -/

theorem goDiv_mul_self (a : Int) : goDiv (goDiv a 60 * 60) 60 = goDiv a 60 := by
  unfold goDiv
  exact Int.mul_tdiv_cancel _ (by decide)

theorem goDiv_trunc (a : Int) : goDiv a 60 * 60 % 60 = 0 ∧ |a - goDiv a 60 * 60| < 60 := by
  unfold goDiv
  constructor
  · exact Int.mul_emod_left _ _
  · have h := Int.tdiv_add_tmod a 60
    have h1 : |Int.tmod a 60| < 60 := by
      have := Int.tmod_lt_of_pos a (show (0 : Int) < 60 by decide)
      have h3 : -60 < Int.tmod a 60 := by
        rcases Int.le_total 0 a with ha | ha
        · have := Int.tmod_nonneg (b := 60) ha
          omega
        · have h4 : Int.tmod a 60 = -Int.tmod (-a) 60 := by
            rw [Int.tmod_def, Int.tmod_def, Int.neg_tdiv]
            omega
          have := Int.tmod_lt_of_pos (-a) (show (0 : Int) < 60 by decide)
          omega
      exact abs_lt.mpr ⟨h3, this⟩
    have h2 : a - Int.tdiv a 60 * 60 = Int.tmod a 60 := by
      have : 60 * Int.tdiv a 60 = Int.tdiv a 60 * 60 := Int.mul_comm _ _
      omega
    rw [h2]; exact h1

/-- Claim C10. `Key()` returns `<query>-<S>-<E>-<step>` where `S` is `Start`
truncated toward zero to a multiple of 60 and `E` equals `S`: the key does not
depend on `End`, and the receiver is left as it was. -/
theorem key_uses_start_twice (durationString : Int → String) (d : QuerySpec) :
    (d.Key durationString).1 =
        d.Query ++ "-" ++ toString (goDiv d.Start 60 * 60) ++ "-" ++
          toString (goDiv d.Start 60 * 60) ++ "-" ++ durationString d.Step
      ∧ goDiv d.Start 60 * 60 % 60 = 0
      ∧ |d.Start - goDiv d.Start 60 * 60| < 60
      ∧ (∀ e : Int, (QuerySpec.Key durationString { d with End := e }).1
            = (d.Key durationString).1)
      ∧ (d.Key durationString).2 = d := by
  refine ⟨?_, (goDiv_trunc d.Start).1, (goDiv_trunc d.Start).2, ?_, rfl⟩
  · simp [QuerySpec.Key, goDiv_mul_self]
  · intro e
    simp [QuerySpec.Key]

/-! ## Facts about `chop` -/

theorem firstIndex_none (start : Int) (vs : List Point) :
    firstIndex start vs = none ↔ ∀ v ∈ vs, v.ts < start := by
  induction vs with
  | nil => simp [firstIndex]
  | cons v rest ih =>
    by_cases h : v.ts ≥ start
    · simp only [firstIndex, h, if_true, List.mem_cons, forall_eq_or_imp]
      constructor
      · intro hh; cases hh
      · intro hh; omega
    · simp only [firstIndex, h, if_false, Option.map_eq_none', ih, List.mem_cons,
        forall_eq_or_imp]
      constructor
      · intro hh; exact ⟨by omega, hh⟩
      · intro hh; exact hh.2

theorem firstIndex_some (start : Int) (vs : List Point) (first : Nat)
    (h : firstIndex start vs = some first) :
    ∃ pre v rest, vs = pre ++ v :: rest ∧ pre.length = first ∧
      (∀ u ∈ pre, u.ts < start) ∧ start ≤ v.ts ∧ vs.drop first = v :: rest := by
  induction vs generalizing first with
  | nil => simp [firstIndex] at h
  | cons v rest ih =>
    by_cases hv : v.ts ≥ start
    · simp only [firstIndex, hv, if_true, Option.some.injEq] at h
      subst h
      exact ⟨[], v, rest, rfl, rfl, by simp, hv, rfl⟩
    · simp only [firstIndex, hv, if_false, Option.map_eq_some'] at h
      obtain ⟨n, hn, rfl⟩ := h
      obtain ⟨pre, w, post, h1, h2, h3, h4, h5⟩ := ih n hn
      refine ⟨v :: pre, w, post, by rw [h1]; rfl, by simp [h2], ?_, h4, by simpa using h5⟩
      intro u hu
      rcases List.mem_cons.mp hu with rfl | hu
      · omega
      · exact h3 u hu

theorem filter_of_split (start : Int) (pre rest : List Point) (v : Point)
    (hpre : ∀ u ∈ pre, u.ts < start) (hv : start ≤ v.ts)
    (hasc : (pre ++ v :: rest).Pairwise (fun a b => a.ts ≤ b.ts)) :
    (pre ++ v :: rest).filter (fun u => decide (start ≤ u.ts)) = v :: rest := by
  have h1 : pre.filter (fun u => decide (start ≤ u.ts)) = [] := by
    rw [List.filter_eq_nil_iff]
    intro u hu
    have := hpre u hu
    simp; omega
  have h2 : (v :: rest).Pairwise (fun a b => a.ts ≤ b.ts) := (List.pairwise_append.mp hasc).2.1
  have h3 : (v :: rest).filter (fun u => decide (start ≤ u.ts)) = v :: rest := by
    rw [List.filter_eq_self]
    intro u hu
    rcases List.mem_cons.mp hu with rfl | hu
    · simpa using hv
    · have := (List.pairwise_cons.mp h2).1 u hu
      simp; omega
  rw [List.filter_append, h1, h3]; rfl

/-- Claim C2 (the code departs from it). For the series
`[(10,1),(70,2),(130,3)]` and `start = 200` no point qualifies, and `chop`
returns the response as it was: the series keeps its three points. -/
theorem chop_no_qualifying_point_keeps_values :
    chop ⟨"success", ⟨"matrix", [⟨[("job", "a")], [⟨10, "1"⟩, ⟨70, "2"⟩, ⟨130, "3"⟩]⟩]⟩⟩ 200
      = ⟨"success", ⟨"matrix", [⟨[("job", "a")], [⟨10, "1"⟩, ⟨70, "2"⟩, ⟨130, "3"⟩]⟩]⟩⟩ := by
  decide

/-- Claim C3. `chop` keeps status, result type, the number of series and
their labels; a series with a point at or after `start` is replaced by its
suffix from the first such point, and for a series ascending by timestamp
that suffix is exactly the points with timestamp at least `start`. -/
theorem chop_keeps_suffix_from_first_qualifying (p : PromResponse) (start : Int) :
    (chop p start).Status = p.Status
      ∧ (chop p start).Data.ResultType = p.Data.ResultType
      ∧ (chop p start).Data.Result.length = p.Data.Result.length
      ∧ (chop p start).Data.Result.map Series.Metric = p.Data.Result.map Series.Metric
      ∧ ∀ (j : Nat) (s : Series), p.Data.Result[j]? = some s →
          (∃ v ∈ s.Values, start ≤ v.ts) →
          ∃ s2 pre v rest, (chop p start).Data.Result[j]? = some s2
            ∧ s2.Metric = s.Metric
            ∧ s.Values = pre ++ v :: rest
            ∧ (∀ u ∈ pre, u.ts < start)
            ∧ start ≤ v.ts
            ∧ s2.Values = v :: rest
            ∧ (s.Values.Pairwise (fun a b => a.ts ≤ b.ts) →
                s2.Values = s.Values.filter (fun u => decide (start ≤ u.ts))) := by
  refine ⟨rfl, rfl, by simp [chop], ?_, ?_⟩
  · simp only [chop, List.map_map]
    apply List.map_congr_left
    intro s _
    simp only [Function.comp, chopSeries]
    split <;> rfl
  · intro j s hs hq
    cases hfi : firstIndex start s.Values with
    | none =>
      obtain ⟨v, hv, hv2⟩ := hq
      have := (firstIndex_none start s.Values).mp hfi v hv
      omega
    | some first =>
      obtain ⟨pre, v, rest, h1, _, h3, h4, h5⟩ := firstIndex_some start s.Values first hfi
      refine ⟨chopSeries start s, pre, v, rest, by simp [chop, hs], ?_, h1, h3, h4, ?_, ?_⟩
      · simp [chopSeries, hfi]
      · simp [chopSeries, hfi, h5]
      · intro hasc
        simp only [chopSeries, hfi, h5]
        rw [h1] at hasc ⊢
        exact (filter_of_split start pre rest v h3 h4 hasc).symm

theorem chop_keeps_suffix_from_first_qualifying_witness :
    ∃ s2, (chop ⟨"success", ⟨"matrix",
        [⟨[("job", "a")], [⟨10, "1"⟩, ⟨70, "2"⟩, ⟨130, "3"⟩]⟩]⟩⟩ 70).Data.Result[0]? = some s2
      ∧ s2.Values = [⟨70, "2"⟩, ⟨130, "3"⟩] := by
  obtain ⟨s2, pre, v, rest, h1, _, h3, h4, h5, h6, _⟩ :=
    (chop_keeps_suffix_from_first_qualifying
      ⟨"success", ⟨"matrix", [⟨[("job", "a")], [⟨10, "1"⟩, ⟨70, "2"⟩, ⟨130, "3"⟩]⟩]⟩⟩ 70).2.2.2.2
      0 ⟨[("job", "a")], [⟨10, "1"⟩, ⟨70, "2"⟩, ⟨130, "3"⟩]⟩ rfl
      ⟨⟨70, "2"⟩, by simp, by decide⟩
  refine ⟨s2, h1, ?_⟩
  have e : s2 = chopSeries 70 ⟨[("job", "a")], [⟨10, "1"⟩, ⟨70, "2"⟩, ⟨130, "3"⟩]⟩ := by
    have : (chop ⟨"success", ⟨"matrix",
        [⟨[("job", "a")], [⟨10, "1"⟩, ⟨70, "2"⟩, ⟨130, "3"⟩]⟩]⟩⟩ 70).Data.Result[0]?
        = some (chopSeries 70 ⟨[("job", "a")], [⟨10, "1"⟩, ⟨70, "2"⟩, ⟨130, "3"⟩]⟩) := rfl
    rw [this] at h1
    exact (Option.some.inj h1).symm
  rw [e]; decide

/-! ## Facts about `appendData` -/

theorem headmap_nil (key : Metric → String) (k : String) : headmap key [] k = none := rfl

theorem headmap_snoc (key : Metric → String) (l : List Series) (x : Series) (k : String) :
    headmap key (l ++ [x]) k = if k = key x.Metric then some x.Values else headmap key l k := by
  simp [headmap, List.foldl_append]

theorem headmap_none_iff (key : Metric → String) (l : List Series) (k : String) :
    headmap key l k = none ↔ ∀ d ∈ l, key d.Metric ≠ k := by
  induction l using List.reverseRecOn with
  | nil => simp [headmap_nil]
  | append_singleton l x ih =>
    rw [headmap_snoc]
    by_cases h : k = key x.Metric
    · simp only [h, if_true]
      constructor
      · intro hh; cases hh
      · intro hh; exact absurd rfl (hh x (by simp))
    · simp only [h, if_false, ih, List.mem_append, List.mem_singleton]
      constructor
      · intro hh d hd
        rcases hd with hd | rfl
        · exact hh d hd
        · exact fun e => h e.symm
      · intro hh d hd
        exact hh d (Or.inl hd)

theorem headmap_some (key : Metric → String) (l : List Series) (k : String) (vs : List Point)
    (h : headmap key l k = some vs) :
    ∃ pre d post, l = pre ++ d :: post ∧ key d.Metric = k ∧
      (∀ x ∈ post, key x.Metric ≠ k) ∧ vs = d.Values := by
  induction l using List.reverseRecOn with
  | nil => simp [headmap_nil] at h
  | append_singleton l x ih =>
    rw [headmap_snoc] at h
    by_cases hk : k = key x.Metric
    · simp only [hk, if_true, Option.some.injEq] at h
      exact ⟨l, x, [], rfl, hk.symm, by simp, h.symm⟩
    · simp only [hk, if_false] at h
      obtain ⟨pre, d, post, h1, h2, h3, h4⟩ := ih h
      refine ⟨pre, d, post ++ [x], by simp [h1], h2, ?_, h4⟩
      intro y hy
      rcases List.mem_append.mp hy with hy | hy
      · exact h3 y hy
      · rw [List.mem_singleton.mp hy]; exact fun e => hk e.symm

theorem headmap_of_distinct (key : Metric → String) (l : List Series)
    (hd : (l.map (fun d => key d.Metric)).Nodup) (d : Series) (hmem : d ∈ l) :
    headmap key l (key d.Metric) = some d.Values := by
  cases hh : headmap key l (key d.Metric) with
  | none => exact absurd rfl ((headmap_none_iff key l _).mp hh d hmem)
  | some vs =>
    obtain ⟨pre, e, post, h1, h2, _, h4⟩ := headmap_some key l _ vs hh
    have hde : d = e := by
      rw [h1] at hd hmem
      rw [List.map_append, List.map_cons, List.nodup_append] at hd
      obtain ⟨n1, n2, n3⟩ := hd
      rcases List.mem_append.mp hmem with hm | hm
      · exfalso
        exact n3 (List.mem_map.mpr ⟨d, hm, rfl⟩) (by rw [← h2]; simp)
      · rcases List.mem_cons.mp hm with hm | hm
        · exact hm
        · exfalso
          exact (List.nodup_cons.mp n2).1 (by rw [h2]; exact List.mem_map.mpr ⟨d, hm, rfl⟩)
    rw [h4, hde]

theorem headmap_filter (key : Metric → String) (q : String → Bool) (l : List Series) (k : String)
    (hk : q k = true) :
    headmap key (l.filter (fun d => q (key d.Metric))) k = headmap key l k := by
  induction l using List.reverseRecOn with
  | nil => rfl
  | append_singleton l x ih =>
    rw [List.filter_append, headmap_snoc]
    by_cases hx : q (key x.Metric) = true
    · have : [x].filter (fun d => q (key d.Metric)) = [x] := by simp [hx]
      rw [this, headmap_snoc, ih]
    · have : [x].filter (fun d => q (key d.Metric)) = [] := by simp [hx]
      rw [this, List.append_nil, ih]
      have hne : k ≠ key x.Metric := fun e => hx (e ▸ hk)
      simp [hne]

theorem appendSeries_metric (key : Metric → String) (hm : String → Option (List Point))
    (c : Series) : (appendSeries key hm c).Metric = c.Metric := by
  unfold appendSeries
  split <;> rfl

/-- Claim C1. When status and result type agree, `appendData delta candidate`
succeeds; its result has the candidate's series, in order and with their
labels; a candidate series whose key occurs in the delta gets the values of
the delta series with that key appended (the last such series of the delta,
which is the only one when the keys of the delta are distinct); a candidate
series whose key does not occur in the delta keeps its values; and the delta
series whose key matches no candidate series can be removed from the delta
without changing the result. -/
theorem appendData_merge_join (key : Metric → String) (delta cand : PromResponse)
    (hs : delta.Status = cand.Status) (ht : delta.Data.ResultType = cand.Data.ResultType) :
    ∃ out, appendData key delta cand = .ok out
      ∧ out.Status = cand.Status
      ∧ out.Data.ResultType = cand.Data.ResultType
      ∧ out.Data.Result.length = cand.Data.Result.length
      ∧ out.Data.Result.map Series.Metric = cand.Data.Result.map Series.Metric
      ∧ (∀ (i : Nat) (c : Series), cand.Data.Result[i]? = some c →
          ∃ o, out.Data.Result[i]? = some o ∧ o.Metric = c.Metric
            ∧ ((∃ d ∈ delta.Data.Result, key d.Metric = key c.Metric) →
                ∃ pre d post, delta.Data.Result = pre ++ d :: post
                  ∧ key d.Metric = key c.Metric
                  ∧ (∀ x ∈ post, key x.Metric ≠ key c.Metric)
                  ∧ o.Values = c.Values ++ d.Values)
            ∧ ((delta.Data.Result.map (fun d => key d.Metric)).Nodup →
                ∀ d ∈ delta.Data.Result, key d.Metric = key c.Metric →
                  o.Values = c.Values ++ d.Values)
            ∧ ((∀ d ∈ delta.Data.Result, key d.Metric ≠ key c.Metric) → o.Values = c.Values))
      ∧ appendData key
          { delta with
            Data := { delta.Data with
                      Result := delta.Data.Result.filter (fun d =>
                        cand.Data.Result.any (fun c => key c.Metric == key d.Metric)) } }
          cand = .ok out := by
  refine ⟨{ cand with
            Data := { cand.Data with
                      Result := cand.Data.Result.map
                        (appendSeries key (headmap key delta.Data.Result)) } },
    by simp [appendData, hs, ht], rfl, rfl, by simp, ?_, ?_, ?_⟩
  · simp only [List.map_map]
    apply List.map_congr_left
    intro c _
    exact appendSeries_metric key _ c
  · intro i c hc
    refine ⟨appendSeries key (headmap key delta.Data.Result) c, by simp [hc],
      appendSeries_metric key _ c, ?_, ?_, ?_⟩
    · intro hex
      cases hh : headmap key delta.Data.Result (key c.Metric) with
      | none =>
        obtain ⟨d, hd, hk⟩ := hex
        exact absurd hk ((headmap_none_iff key _ _).mp hh d hd)
      | some vs =>
        obtain ⟨pre, d, post, h1, h2, h3, h4⟩ := headmap_some key _ _ vs hh
        exact ⟨pre, d, post, h1, h2, h3, by simp [appendSeries, hh, h4]⟩
    · intro hnd d hd hk
      have := headmap_of_distinct key delta.Data.Result hnd d hd
      rw [hk] at this
      simp [appendSeries, this]
    · intro hno
      have := (headmap_none_iff key delta.Data.Result (key c.Metric)).mpr hno
      simp [appendSeries, this]
  · simp only [appendData, hs, ht, ne_eq, not_true_eq_false, if_false]
    congr 3
    apply List.map_congr_left
    intro c hc
    have hq : (fun k => cand.Data.Result.any (fun c => key c.Metric == k)) (key c.Metric)
        = true := by
      simp only [List.any_eq_true, beq_iff_eq]
      exact ⟨c, hc, rfl⟩
    have := headmap_filter key (fun k => cand.Data.Result.any (fun c => key c.Metric == k))
      delta.Data.Result (key c.Metric) hq
    simp only [appendSeries]
    rw [this]

theorem appendData_merge_join_witness :
    ∃ out, appendData exampleKey exampleDelta exampleCandidate = .ok out
      ∧ out.Data.Result
          = [⟨[("job", "a")], [⟨300, "2"⟩, ⟨360, "3"⟩, ⟨600, "4"⟩, ⟨660, "5"⟩]⟩] := by
  obtain ⟨out, h, _⟩ := appendData_merge_join exampleKey exampleDelta exampleCandidate rfl rfl
  refine ⟨out, h, ?_⟩
  have e : appendData exampleKey exampleDelta exampleCandidate
      = .ok ⟨"success", ⟨"matrix",
          [⟨[("job", "a")], [⟨300, "2"⟩, ⟨360, "3"⟩, ⟨600, "4"⟩, ⟨660, "5"⟩]⟩]⟩⟩ := by
    rfl
  rw [e] at h
  cases h
  rfl

/-! ## Time order of a merged response -/

theorem chopSeries_values_drop (start : Int) (c : Series) :
    ∃ n, (chopSeries start c).Values = c.Values.drop n := by
  unfold chopSeries
  split
  · exact ⟨_, rfl⟩
  · exact ⟨0, rfl⟩

theorem appendSeries_values (key : Metric → String) (l : List Series) (c : Series) :
    (appendSeries key (headmap key l) c).Values = c.Values
      ∨ ∃ d ∈ l, (appendSeries key (headmap key l) c).Values = c.Values ++ d.Values := by
  cases hh : headmap key l (key c.Metric) with
  | none => left; simp [appendSeries, hh]
  | some vs =>
    right
    obtain ⟨pre, d, post, h1, _, _, h4⟩ := headmap_some key l _ vs hh
    exact ⟨d, by rw [h1]; simp, by simp [appendSeries, hh, h4]⟩

theorem pairwise_merge (r : Int → Int → Prop) (ce : Int)
    (hr : ∀ a b : Int, a < ce → ce ≤ b → r a b) (xs ys : List Point) (n : Nat)
    (hx : xs.Pairwise (fun a b => r a.ts b.ts)) (hxb : ∀ v ∈ xs, v.ts < ce)
    (hy : ys.Pairwise (fun a b => r a.ts b.ts)) (hyb : ∀ v ∈ ys, ce ≤ v.ts) :
    (xs.drop n ++ ys).Pairwise (fun a b => r a.ts b.ts) := by
  rw [List.pairwise_append]
  refine ⟨hx.sublist (List.drop_sublist n xs), hy, ?_⟩
  intro a ha b hb
  exact hr a.ts b.ts (hxb a (List.mem_of_mem_drop ha)) (hyb b hb)

theorem merged_pairwise (r : Int → Int → Prop) (ce : Int)
    (hr : ∀ a b : Int, a < ce → ce ≤ b → r a b)
    (key : Metric → String) (cand delta : PromResponse) (s : Int)
    (hc : ∀ c ∈ cand.Data.Result,
      c.Values.Pairwise (fun a b => r a.ts b.ts) ∧ ∀ v ∈ c.Values, v.ts < ce)
    (hd : ∀ d ∈ delta.Data.Result,
      d.Values.Pairwise (fun a b => r a.ts b.ts) ∧ ∀ v ∈ d.Values, ce ≤ v.ts)
    (merged : PromResponse) (hm : appendData key delta (chop cand s) = .ok merged) :
    ∀ o ∈ merged.Data.Result, o.Values.Pairwise (fun a b => r a.ts b.ts) := by
  intro o ho
  unfold appendData at hm
  split at hm
  · cases hm
  · split at hm
    · cases hm
    · cases hm
      simp only [chop, List.map_map, List.mem_map, Function.comp] at ho
      obtain ⟨c, hcm, rfl⟩ := ho
      obtain ⟨n, hn⟩ := chopSeries_values_drop s c
      obtain ⟨hc1, hc2⟩ := hc c hcm
      rcases appendSeries_values key delta.Data.Result (chopSeries s c) with h | ⟨d, hdm, h⟩
      · rw [h, hn]
        exact hc1.sublist (List.drop_sublist n c.Values)
      · rw [h, hn]
        obtain ⟨hd1, hd2⟩ := hd d hdm
        exact pairwise_merge r ce hr c.Values d.Values n hc1 hc2 hd1 hd2

/-- Claim C9. If every candidate series is ascending by timestamp with all
timestamps below `ce`, and every delta series is ascending with all timestamps
at least `ce`, then every series of the response that `appendData` builds from
the delta and `chop candidate s` is ascending by timestamp; when the inputs
are strictly ascending, so is the result. -/
theorem merged_series_ascending (key : Metric → String) (cand delta : PromResponse)
    (s ce : Int)
    (hc : ∀ c ∈ cand.Data.Result,
      c.Values.Pairwise (fun a b => a.ts ≤ b.ts) ∧ ∀ v ∈ c.Values, v.ts < ce)
    (hd : ∀ d ∈ delta.Data.Result,
      d.Values.Pairwise (fun a b => a.ts ≤ b.ts) ∧ ∀ v ∈ d.Values, ce ≤ v.ts)
    (merged : PromResponse) (hm : appendData key delta (chop cand s) = .ok merged) :
    (∀ o ∈ merged.Data.Result, o.Values.Pairwise (fun a b => a.ts ≤ b.ts))
      ∧ ((∀ c ∈ cand.Data.Result, c.Values.Pairwise (fun a b => a.ts < b.ts)) →
         (∀ d ∈ delta.Data.Result, d.Values.Pairwise (fun a b => a.ts < b.ts)) →
         ∀ o ∈ merged.Data.Result, o.Values.Pairwise (fun a b => a.ts < b.ts)) := by
  constructor
  · exact merged_pairwise (fun a b => a ≤ b) ce (fun a b h1 h2 => by omega) key cand delta s
      hc hd merged hm
  · intro hcs hds
    exact merged_pairwise (fun a b => a < b) ce (fun a b h1 h2 => by omega) key cand delta s
      (fun c hcm => ⟨hcs c hcm, (hc c hcm).2⟩) (fun d hdm => ⟨hds d hdm, (hd d hdm).2⟩)
      merged hm

theorem merged_series_ascending_witness :
    appendData exampleKey exampleDelta (chop exampleStored 300)
        = .ok ⟨"success", ⟨"matrix", [⟨[("job", "a")],
            [⟨300, "2"⟩, ⟨360, "3"⟩, ⟨600, "4"⟩, ⟨660, "5"⟩]⟩]⟩⟩
      ∧ ∀ o ∈ [(⟨[("job", "a")],
            [⟨300, "2"⟩, ⟨360, "3"⟩, ⟨600, "4"⟩, ⟨660, "5"⟩]⟩ : Series)],
          o.Values.Pairwise (fun a b => a.ts ≤ b.ts) :=
  ⟨rfl,
   (merged_series_ascending exampleKey exampleStored exampleDelta 300 600
      (by decide) (by decide) _ rfl).1⟩

/-! ## The selection of `cacheCheck` -/

theorem topRow_none (l : List CacheEntry) : topRow l = none ↔ l = [] := by
  cases l with
  | nil => simp [topRow]
  | cons row rest =>
    simp only [topRow]
    cases topRow rest with
    | none => simp
    | some best => by_cases h : rangeLt row best <;> simp [h]

theorem topRow_some (l : List CacheEntry) (r : CacheEntry) (h : topRow l = some r) :
    r ∈ l ∧ ∀ o ∈ l, ¬ rangeLt r o := by
  induction l generalizing r with
  | nil => simp [topRow] at h
  | cons row rest ih =>
    simp only [topRow] at h
    cases hr : topRow rest with
    | none =>
      rw [hr] at h
      simp only [Option.some.injEq] at h
      subst h
      have := (topRow_none rest).mp hr
      subst this
      refine ⟨by simp, ?_⟩
      intro o ho
      rw [List.mem_singleton.mp ho]
      unfold rangeLt; omega
    | some best =>
      rw [hr] at h
      obtain ⟨hb1, hb2⟩ := ih best hr
      by_cases hlt : rangeLt row best
      · simp only [hlt, if_true, Option.some.injEq] at h
        subst h
        refine ⟨List.mem_cons_of_mem _ hb1, ?_⟩
        intro o ho
        rcases List.mem_cons.mp ho with rfl | ho
        · unfold rangeLt at hlt ⊢; omega
        · exact hb2 o ho
      · simp only [hlt, if_false, Option.some.injEq] at h
        subst h
        refine ⟨by simp, ?_⟩
        intro o ho
        rcases List.mem_cons.mp ho with rfl | ho
        · unfold rangeLt; omega
        · have := hb2 o ho
          unfold rangeLt at hlt this ⊢; omega

theorem cacheCheck_ok_row (spec : QuerySpec) (env : Env) (db : DB) (cachedProm : PromResponse)
    (cachedSpec : QuerySpec) (h : cacheCheck env db spec = .ok (cachedProm, cachedSpec)) :
    ∃ row, queryRow db.rows spec = some row ∧ env.decode row.body = some cachedProm
      ∧ cachedSpec = ⟨spec.Query, row.lo, row.hi, spec.Step⟩ := by
  unfold cacheCheck at h
  split_ifs at h
  cases hq : queryRow db.rows spec with
  | none => rw [hq] at h; cases h
  | some row =>
    rw [hq] at h
    cases hd : env.decode row.body with
    | none => simp [hd] at h
    | some p =>
      simp only [hd, Except.ok.injEq, Prod.mk.injEq] at h
      exact ⟨row, rfl, by rw [← h.1]; exact hd, h.2.symm⟩

theorem matchesWhere_iff (spec : QuerySpec) (row : CacheEntry) :
    matchesWhere spec row ↔
      (row.query = spec.Query ∧ row.step = spec.Step ∧ row.lo < row.hi ∧
        spec.Start < spec.End ∧ row.hi ≤ spec.End ∧ spec.Start < row.hi ∧
        ¬ (row.lo = spec.Start ∧ row.hi = spec.End)) := by
  unfold matchesWhere notRightOf overlaps rangeNe
  constructor
  · rintro ⟨h1, h2, h3, h4, h5⟩
    exact ⟨h1, h2, by omega, by omega, by omega, by omega, h5⟩
  · rintro ⟨h1, h2, h3, h4, h5, h6, h7⟩
    exact ⟨h1, h2, ⟨by omega, by omega, by omega⟩, ⟨by omega, by omega, by omega, by omega⟩, h7⟩

theorem queryRow_some (rows : List CacheEntry) (spec : QuerySpec) (row : CacheEntry)
    (h : queryRow rows spec = some row) :
    row ∈ rows ∧ matchesWhere spec row ∧
      ∀ other ∈ rows, matchesWhere spec other →
        other.lo < row.lo ∨ (other.lo = row.lo ∧ other.hi ≤ row.hi) := by
  obtain ⟨h1, h2⟩ := topRow_some _ row h
  rw [List.mem_filter] at h1
  refine ⟨h1.1, of_decide_eq_true h1.2, ?_⟩
  intro other ho hm
  have := h2 other (List.mem_filter.mpr ⟨ho, decide_eq_true hm⟩)
  unfold rangeLt at this; omega

theorem queryRow_none (rows : List CacheEntry) (spec : QuerySpec) :
    queryRow rows spec = none ↔ ∀ row ∈ rows, ¬ matchesWhere spec row := by
  unfold queryRow
  rw [topRow_none, List.filter_eq_nil_iff]
  simp

/-- The filter of line 207 puts no bound on the start of a row, although
lines 256-265 splice the stored data from the requested start on: with the
single stored range `[1500,1800)` and the request `[1000,2000)` the lookup
returns the row, and nothing covers `[1000,1500)`. -/
theorem queryRow_start_not_bounded :
    queryRow [⟨"up", 15, 1500, 1800, "b"⟩] ⟨"up", 1000, 2000, 15⟩
      = some ⟨"up", 15, 1500, 1800, "b"⟩ := by
  decide

/-- Claim C7 as stated fails. (1) With the single entry `[0,3000)` and the
request `[1000,2000)` the entry starts before the requested start, overlaps
the request and differs from it, and the lookup finds nothing, because the
entry ends after the requested end. (2) With the entries `[0,1500)` and
`[100,1000)` and the request `[500,2000)` both entries start before the
requested start, overlap the request and differ from it, and the lookup
returns `[100,1000)`, whose end is not the latest. -/
theorem queryRow_not_as_stated :
    (queryRow [⟨"up", 15, 0, 3000, "b"⟩] ⟨"up", 1000, 2000, 15⟩ = none
        ∧ qualifiesAsSpecified ⟨"up", 1000, 2000, 15⟩ ⟨"up", 15, 0, 3000, "b"⟩)
      ∧ (queryRow [⟨"up", 15, 0, 1500, "b1"⟩, ⟨"up", 15, 100, 1000, "b2"⟩]
            ⟨"up", 500, 2000, 15⟩
            = some ⟨"up", 15, 100, 1000, "b2"⟩
        ∧ qualifiesAsSpecified ⟨"up", 500, 2000, 15⟩ ⟨"up", 15, 0, 1500, "b1"⟩
        ∧ qualifiesAsSpecified ⟨"up", 500, 2000, 15⟩ ⟨"up", 15, 100, 1000, "b2"⟩
        ∧ (1000 : Int) < 1500) := by
  decide

/-- Claim C7, amended. Call an entry eligible when it shares query and step
with the request and its range `[lo,hi)` satisfies
`lo <= Start < hi <= End` without being the requested range. (1) A returned
row shares query and step with the request, ends at or before the requested
end, overlaps the requested range and differs from it. (2) No eligible entry
exceeds the returned row in the range order (later start, or equal start and
later end), so a returned row that starts at or before the requested start is
the greatest eligible entry. (3) When nothing is returned, no entry is
eligible. (4) When every entry passing the filter starts at or before the
requested start, nothing is returned exactly when no entry is eligible.
(5) With `[0,100)` and `[0,150)` and the request `[50,200)` the row `[0,150)`
is returned. (6) A row ending at the requested start is never returned.
(7) What `cacheCheck` hands back is that row, decoded, with its bounds. What
the lookup does with entries that start after the requested start is not part
of the statement. -/
theorem queryRow_selection_within_start_bound (rows : List CacheEntry) (spec : QuerySpec) :
    (∀ row, queryRow rows spec = some row →
        row ∈ rows ∧ row.query = spec.Query ∧ row.step = spec.Step ∧
          row.hi ≤ spec.End ∧ overlaps row.lo row.hi spec.Start spec.End ∧
          ¬ (row.lo = spec.Start ∧ row.hi = spec.End))
      ∧ (∀ row, queryRow rows spec = some row →
          ∀ other ∈ rows,
            (other.query = spec.Query ∧ other.step = spec.Step ∧ other.lo ≤ spec.Start ∧
              spec.Start < other.hi ∧ other.hi ≤ spec.End ∧
              ¬ (other.lo = spec.Start ∧ other.hi = spec.End)) →
            other.lo < row.lo ∨ (other.lo = row.lo ∧ other.hi ≤ row.hi))
      ∧ (queryRow rows spec = none →
          ∀ other ∈ rows,
            ¬ (other.query = spec.Query ∧ other.step = spec.Step ∧ other.lo ≤ spec.Start ∧
              spec.Start < other.hi ∧ other.hi ≤ spec.End ∧
              ¬ (other.lo = spec.Start ∧ other.hi = spec.End)))
      ∧ ((∀ other ∈ rows, matchesWhere spec other → other.lo ≤ spec.Start) →
          (queryRow rows spec = none ↔
            ∀ other ∈ rows,
              ¬ (other.query = spec.Query ∧ other.step = spec.Step ∧
                other.lo ≤ spec.Start ∧ spec.Start < other.hi ∧ other.hi ≤ spec.End ∧
                ¬ (other.lo = spec.Start ∧ other.hi = spec.End))))
      ∧ queryRow [⟨"up", 15, 0, 100, "b1"⟩, ⟨"up", 15, 0, 150, "b2"⟩] ⟨"up", 50, 200, 15⟩
          = some ⟨"up", 15, 0, 150, "b2"⟩
      ∧ (∀ row, queryRow rows spec = some row → row.hi ≠ spec.Start)
      ∧ (∀ (env : Env) (db : DB) (cachedProm : PromResponse) (cachedSpec : QuerySpec),
          cacheCheck env db spec = .ok (cachedProm, cachedSpec) →
          ∃ row, queryRow db.rows spec = some row ∧ env.decode row.body = some cachedProm
            ∧ cachedSpec = ⟨spec.Query, row.lo, row.hi, spec.Step⟩) := by
  have elig : ∀ other : CacheEntry,
      (other.query = spec.Query ∧ other.step = spec.Step ∧ other.lo ≤ spec.Start ∧
        spec.Start < other.hi ∧ other.hi ≤ spec.End ∧
        ¬ (other.lo = spec.Start ∧ other.hi = spec.End)) → matchesWhere spec other := by
    rintro other ⟨h1, h2, h3, h4, h5, h6⟩
    exact (matchesWhere_iff spec other).mpr
      ⟨h1, h2, by omega, by omega, h5, h4, h6⟩
  refine ⟨?_, ?_, ?_, ?_, by decide, ?_, cacheCheck_ok_row spec⟩
  · intro row h
    obtain ⟨h1, h2, _⟩ := queryRow_some rows spec row h
    have h3 := h2
    obtain ⟨a1, a2, a3, a4, a5, a6, a7⟩ := (matchesWhere_iff spec row).mp h2
    exact ⟨h1, a1, a2, a5, h3.2.2.2.1, a7⟩
  · intro row h other ho he
    exact (queryRow_some rows spec row h).2.2 other ho (elig other he)
  · intro h other ho he
    exact (queryRow_none rows spec).mp h other ho (elig other he)
  · intro hb
    constructor
    · intro h other ho he
      exact (queryRow_none rows spec).mp h other ho (elig other he)
    · intro h
      rw [queryRow_none]
      intro other ho hm
      obtain ⟨a1, a2, a3, a4, a5, a6, a7⟩ := (matchesWhere_iff spec other).mp hm
      exact h other ho ⟨a1, a2, hb other ho hm, a6, a5, a7⟩
  · intro row h
    obtain ⟨_, h2, _⟩ := queryRow_some rows spec row h
    obtain ⟨a1, a2, a3, a4, a5, a6, a7⟩ := (matchesWhere_iff spec row).mp h2
    omega

theorem queryRow_selection_within_start_bound_witness :
    (queryRow [⟨"up", 15, 0, 3000, "b"⟩] ⟨"up", 1000, 2000, 15⟩ = none ↔
      ∀ other ∈ [(⟨"up", 15, 0, 3000, "b"⟩ : CacheEntry)],
        ¬ (other.query = "up" ∧ other.step = 15 ∧ other.lo ≤ 1000 ∧
          1000 < other.hi ∧ other.hi ≤ 2000 ∧ ¬ (other.lo = 1000 ∧ other.hi = 2000))) :=
  (queryRow_selection_within_start_bound [⟨"up", 15, 0, 3000, "b"⟩]
    ⟨"up", 1000, 2000, 15⟩).2.2.2.1 (by decide)

/-! ## Facts about `handleRangeRequest` -/

theorem fullFetch_result (env : Env) (db : DB) (query : String) (spec : QuerySpec) :
    (fullFetch env db query spec).result = (proxy env query true).1 := by
  unfold fullFetch
  rcases hp : proxy env query true with ⟨r, buf⟩
  cases r with
  | error e => rfl
  | ok promData =>
    simp only
    split_ifs <;> rfl

theorem cacheCheck_cache_off (env : Env) (db : DB) (spec : QuerySpec) (h : env.cache = false) :
    cacheCheck env db spec = .error .noRows := by
  simp [cacheCheck, h]

theorem handleRangeRequest_of_miss (env : Env) (db : DB) (query : String) (spec : QuerySpec)
    (e : Err) (hspec : getSpec env query = .ok spec) (hmiss : cacheCheck env db spec = .error e) :
    handleRangeRequest env db query = fullFetch env db query spec := by
  simp [handleRangeRequest, hspec, hmiss]

theorem handleRangeRequest_of_hit (env : Env) (db : DB) (query : String)
    (spec cachedSpec : QuerySpec) (cachedProm : PromResponse)
    (hspec : getSpec env query = .ok spec)
    (hhit : cacheCheck env db spec = .ok (cachedProm, cachedSpec)) (hne : spec ≠ cachedSpec) :
    handleRangeRequest env db query =
      match (proxy env (fixupQuery env (fixupSpec spec cachedSpec)) false).1 with
      | .error e => ⟨.error e, [], db⟩
      | .ok fixupData =>
        match appendData env.key fixupData (chop cachedProm spec.Start) with
        | .error _ => fullFetch env db query spec
        | .ok merged => ⟨.ok merged, [], db⟩ := by
  simp [handleRangeRequest, hspec, hhit, hne]

theorem wrap64_of_inRange (n : Int) (h1 : -2 ^ 63 ≤ n) (h2 : n < 2 ^ 63) : wrap64 n = n := by
  unfold wrap64
  have : (n + 2 ^ 63) % 2 ^ 64 = n + 2 ^ 63 := by
    apply Int.emod_eq_of_lt <;> omega
  omega

/-- Claim C6. When the lookup yields a candidate that differs from the
request, the delta is fetched and `appendData` succeeds, `handleRangeRequest`
returns the merged response, issues no `INSERT` and leaves the table as it
was. -/
theorem merged_response_not_stored (env : Env) (db : DB) (query : String)
    (spec cachedSpec : QuerySpec) (cachedProm fixupData merged : PromResponse)
    (hspec : getSpec env query = .ok spec)
    (hhit : cacheCheck env db spec = .ok (cachedProm, cachedSpec))
    (hne : spec ≠ cachedSpec)
    (hdelta : (proxy env (fixupQuery env (fixupSpec spec cachedSpec)) false).1 = .ok fixupData)
    (hmerge : appendData env.key fixupData (chop cachedProm spec.Start) = .ok merged) :
    (handleRangeRequest env db query).result = .ok merged
      ∧ (handleRangeRequest env db query).inserts = []
      ∧ (handleRangeRequest env db query).db = db := by
  rw [handleRangeRequest_of_hit env db query spec cachedSpec cachedProm hspec hhit hne]
  simp [hdelta, hmerge]

theorem merged_response_not_stored_witness :
    (handleRangeRequest exampleEnv exampleDB requestURI).result
        = .ok ⟨"success", ⟨"matrix", [⟨[("job", "a")],
            [⟨300, "2"⟩, ⟨360, "3"⟩, ⟨600, "4"⟩, ⟨660, "5"⟩]⟩]⟩⟩
      ∧ (handleRangeRequest exampleEnv exampleDB requestURI).inserts = []
      ∧ (handleRangeRequest exampleEnv exampleDB requestURI).db = exampleDB :=
  merged_response_not_stored exampleEnv exampleDB requestURI requestSpec
    ⟨"up", 120, 600, 15000000000⟩ exampleStored exampleDelta _ rfl rfl (by decide) rfl rfl

theorem handleRangeRequest_result_of_hit (env : Env) (db : DB) (query : String)
    (spec cachedSpec : QuerySpec) (cachedProm : PromResponse)
    (hspec : getSpec env query = .ok spec)
    (hhit : cacheCheck env db spec = .ok (cachedProm, cachedSpec)) (hne : spec ≠ cachedSpec) :
    (handleRangeRequest env db query).result =
      match (proxy env (fixupQuery env (fixupSpec spec cachedSpec)) false).1 with
      | .error e => .error e
      | .ok delta =>
        match appendData env.key delta (chop cachedProm spec.Start) with
        | .ok merged => .ok merged
        | .error _ => (proxy env query true).1 := by
  rw [handleRangeRequest_of_hit env db query spec cachedSpec cachedProm hspec hhit hne]
  cases hp : (proxy env (fixupQuery env (fixupSpec spec cachedSpec)) false).1 with
  | error e => rfl
  | ok delta =>
    simp only
    cases hm : appendData env.key delta (chop cachedProm spec.Start) with
    | error e => simp only [fullFetch_result]
    | ok merged => rfl

/-- Claim C4 as stated fails. The table holds `[120,600)` and `[0,800)` and
the request is `[300,900)`: the lookup yields `[120,600)`, the fixup
descriptor is `[600,900)`, and `handleRangeRequest` on the fixup request would
answer from the stored `[0,800)` (values 72, 73, then 6 from the backend).
The response to the original request carries the values 4 and 5 that the
backend serves for `[600,900)`, not the values of that reconciliation. -/
theorem delta_not_reconciled :
    getSpec exampleEnv requestURI = .ok requestSpec
      ∧ cacheCheck exampleEnv exampleDB requestSpec
          = .ok (exampleStored, ⟨"up", 120, 600, 15000000000⟩)
      ∧ requestSpec ≠ ⟨"up", 120, 600, 15000000000⟩
      ∧ fixupSpec requestSpec ⟨"up", 120, 600, 15000000000⟩ = ⟨"up", 600, 900, 15000000000⟩
      ∧ fixupQuery exampleEnv ⟨"up", 600, 900, 15000000000⟩ = fixupURI
      ∧ getSpec exampleEnv fixupURI = .ok ⟨"up", 600, 900, 15000000000⟩
      ∧ (handleRangeRequest exampleEnv exampleDB fixupURI).result
          = .ok ⟨"success", ⟨"matrix", [⟨[("job", "a")],
              [⟨600, "72"⟩, ⟨720, "73"⟩, ⟨840, "6"⟩]⟩]⟩⟩
      ∧ appendData exampleKey
            ⟨"success", ⟨"matrix", [⟨[("job", "a")],
              [⟨600, "72"⟩, ⟨720, "73"⟩, ⟨840, "6"⟩]⟩]⟩⟩
            (chop exampleStored 300)
          = .ok ⟨"success", ⟨"matrix", [⟨[("job", "a")],
              [⟨300, "2"⟩, ⟨360, "3"⟩, ⟨600, "72"⟩, ⟨720, "73"⟩, ⟨840, "6"⟩]⟩]⟩⟩
      ∧ (handleRangeRequest exampleEnv exampleDB requestURI).result
          = .ok ⟨"success", ⟨"matrix", [⟨[("job", "a")],
              [⟨300, "2"⟩, ⟨360, "3"⟩, ⟨600, "4"⟩, ⟨660, "5"⟩]⟩]⟩⟩
      ∧ (handleRangeRequest exampleEnv exampleDB requestURI).result
          ≠ .ok ⟨"success", ⟨"matrix", [⟨[("job", "a")],
              [⟨300, "2"⟩, ⟨360, "3"⟩, ⟨600, "72"⟩, ⟨720, "73"⟩, ⟨840, "6"⟩]⟩]⟩⟩ := by
  refine ⟨rfl, rfl, by decide, rfl, rfl, rfl, rfl, rfl, rfl, ?_⟩
  intro h
  have e : (handleRangeRequest exampleEnv exampleDB requestURI).result
      = .ok ⟨"success", ⟨"matrix", [⟨[("job", "a")],
          [⟨300, "2"⟩, ⟨360, "3"⟩, ⟨600, "4"⟩, ⟨660, "5"⟩]⟩]⟩⟩ := rfl
  rw [e] at h
  exact absurd (Except.ok.inj h) (by decide)

/-- Claim C4, amended. On a hit whose descriptor differs from the request,
the fixup descriptor is `{query, step, start: candidate.end, end:
request.end}` and the delta merged with the chopped candidate is the result of
one direct backend call `proxy(fixupQuery, nil)`: the response is that error
when the call fails, the merge when `appendData` succeeds, and the full fetch
of the original query otherwise. No lookup is made for the fixup descriptor:
any table that yields the same candidate for the request gives the same
response. -/
theorem delta_is_direct_backend_fetch (env : Env) (db : DB) (query : String)
    (spec cachedSpec : QuerySpec) (cachedProm : PromResponse)
    (hspec : getSpec env query = .ok spec)
    (hhit : cacheCheck env db spec = .ok (cachedProm, cachedSpec)) (hne : spec ≠ cachedSpec) :
    fixupSpec spec cachedSpec
        = { Query := spec.Query, Step := spec.Step, Start := cachedSpec.End, End := spec.End }
      ∧ (handleRangeRequest env db query).result =
          (match (proxy env (fixupQuery env (fixupSpec spec cachedSpec)) false).1 with
           | .error e => .error e
           | .ok delta =>
             match appendData env.key delta (chop cachedProm spec.Start) with
             | .ok merged => .ok merged
             | .error _ => (proxy env query true).1)
      ∧ (∀ db2 : DB, cacheCheck env db2 spec = .ok (cachedProm, cachedSpec) →
          (handleRangeRequest env db2 query).result = (handleRangeRequest env db query).result) := by
  refine ⟨rfl, handleRangeRequest_result_of_hit env db query spec cachedSpec cachedProm
    hspec hhit hne, ?_⟩
  intro db2 h2
  rw [handleRangeRequest_result_of_hit env db query spec cachedSpec cachedProm hspec hhit hne,
    handleRangeRequest_result_of_hit env db2 query spec cachedSpec cachedProm hspec h2 hne]

theorem delta_is_direct_backend_fetch_witness :
    (handleRangeRequest exampleEnv exampleDB requestURI).result =
      (match (proxy exampleEnv (fixupQuery exampleEnv
          (fixupSpec requestSpec ⟨"up", 120, 600, 15000000000⟩)) false).1 with
       | .error e => .error e
       | .ok delta =>
         match appendData exampleEnv.key delta (chop exampleStored requestSpec.Start) with
         | .ok merged => .ok merged
         | .error _ => (proxy exampleEnv requestURI true).1) :=
  (delta_is_direct_backend_fetch exampleEnv exampleDB requestURI requestSpec
    ⟨"up", 120, 600, 15000000000⟩ exampleStored rfl rfl (by decide)).2.1

/-- Claim C8. When the lookup of `cacheCheck` reports no rows or any other
error, `handleRangeRequest` returns what the backend fetch of the original
query returns, which is also what it returns with caching switched off; and
whether the `INSERT` fails has no influence on the returned value. -/
theorem lookup_failure_degrades_to_miss (env : Env) (db : DB) (query : String)
    (spec : QuerySpec) (e : Err)
    (hspec : getSpec env query = .ok spec) (hmiss : cacheCheck env db spec = .error e) :
    (handleRangeRequest env db query).result = (proxy env query true).1
      ∧ (handleRangeRequest env db query).result
          = (handleRangeRequest { env with cache := false } db query).result
      ∧ (∀ b : Bool, (handleRangeRequest env { db with execFails := b } query).result
          = (handleRangeRequest env db query).result) := by
  have h1 : (handleRangeRequest env db query).result = (proxy env query true).1 := by
    rw [handleRangeRequest_of_miss env db query spec e hspec hmiss, fullFetch_result]
  refine ⟨h1, ?_, ?_⟩
  · have hs : getSpec { env with cache := false } query = .ok spec := hspec
    have hm := cacheCheck_cache_off { env with cache := false } db spec rfl
    rw [h1, handleRangeRequest_of_miss _ db query spec _ hs hm, fullFetch_result]
    rfl
  · intro b
    have hm : cacheCheck env { db with execFails := b } spec = .error e := hmiss
    rw [h1, handleRangeRequest_of_miss env _ query spec e hspec hm, fullFetch_result]

theorem lookup_failure_degrades_to_miss_witness :
    (handleRangeRequest exampleEnv emptyDB requestURI).result = .ok exampleFull :=
  (lookup_failure_degrades_to_miss exampleEnv emptyDB requestURI requestSpec .noRows
    rfl rfl).1

theorem proxy_of_ok (env : Env) (query body : String) (promData : PromResponse)
    (hget : env.httpGet query = some (200, body)) (hdec : env.decode body = some promData) :
    proxy env query true = (.ok promData, body) := by
  simp [proxy, hget, hdec]

theorem fullFetch_of_ok (env : Env) (db : DB) (query body : String) (spec : QuerySpec)
    (promData : PromResponse) (hcache : env.cache = true)
    (hget : env.httpGet query = some (200, body)) (hdec : env.decode body = some promData) :
    fullFetch env db query spec =
      if promData.Status = "success" ∧ promData.Data.ResultType = "matrix" ∧
          300 ≤ wrap64 (spec.End - spec.Start) then
        ⟨.ok promData, [⟨spec.Query, spec.Step, spec.Start, spec.End, body⟩],
          db.exec ⟨spec.Query, spec.Step, spec.Start, spec.End, body⟩⟩
      else ⟨.ok promData, [], db⟩ := by
  unfold fullFetch
  rw [proxy_of_ok env query body promData hget hdec]
  simp only [hcache, if_true]
  by_cases h1 : promData.Status = "success"
  · by_cases h2 : promData.Data.ResultType = "matrix"
    · by_cases h3 : wrap64 (spec.End - spec.Start) < 5 * 60
      · have h4 : ¬ (300 ≤ wrap64 (spec.End - spec.Start)) := by omega
        simp [h1, h2, h3, h4]
      · have h4 : 300 ≤ wrap64 (spec.End - spec.Start) := by omega
        simp [h1, h2, h3, h4]
    · simp [h1, h2]
  · simp [h1]

/-- Claim C5. For a request that reaches the full fetch (the lookup failed,
or the merge failed) with caching on and a backend fetch that succeeds with
raw bytes `body`, `handleRangeRequest` issues an `INSERT` exactly when the
response has status `success`, result type `matrix` and
`spec.End - spec.Start >= 300`; the inserted row has the query, the step and
the range `[Start,End)` of the request and `body` as body. A span of 299 is
not stored, a span of 300 is, and a `vector` result never is. The span is the
64-bit difference the program computes, which is the exact difference
whenever that fits in 64 bits. -/
theorem write_back_eligibility (env : Env) (db : DB) (query body : String) (spec : QuerySpec)
    (promData : PromResponse)
    (hspec : getSpec env query = .ok spec)
    (hreach : (∃ e, cacheCheck env db spec = .error e) ∨
      (∃ cachedProm cachedSpec fixupData e,
        cacheCheck env db spec = .ok (cachedProm, cachedSpec) ∧ spec ≠ cachedSpec ∧
        (proxy env (fixupQuery env (fixupSpec spec cachedSpec)) false).1 = .ok fixupData ∧
        appendData env.key fixupData (chop cachedProm spec.Start) = .error e))
    (hcache : env.cache = true)
    (hget : env.httpGet query = some (200, body)) (hdec : env.decode body = some promData) :
    (handleRangeRequest env db query).result = .ok promData
      ∧ ((handleRangeRequest env db query).inserts ≠ [] ↔
          (promData.Status = "success" ∧ promData.Data.ResultType = "matrix" ∧
            300 ≤ wrap64 (spec.End - spec.Start)))
      ∧ ((handleRangeRequest env db query).inserts ≠ [] →
          (handleRangeRequest env db query).inserts
              = [⟨spec.Query, spec.Step, spec.Start, spec.End, body⟩]
            ∧ (handleRangeRequest env db query).db
              = db.exec ⟨spec.Query, spec.Step, spec.Start, spec.End, body⟩)
      ∧ ((handleRangeRequest env db query).inserts = [] →
          (handleRangeRequest env db query).db = db)
      ∧ (-2 ^ 63 ≤ spec.End - spec.Start → spec.End - spec.Start < 2 ^ 63 →
          wrap64 (spec.End - spec.Start) = spec.End - spec.Start)
      ∧ (spec.End - spec.Start = 299 → (handleRangeRequest env db query).inserts = [])
      ∧ (spec.End - spec.Start = 300 → promData.Status = "success" →
          promData.Data.ResultType = "matrix" →
          (handleRangeRequest env db query).inserts
            = [⟨spec.Query, spec.Step, spec.Start, spec.End, body⟩])
      ∧ (promData.Data.ResultType = "vector" →
          (handleRangeRequest env db query).inserts = []) := by
  have hfull : handleRangeRequest env db query = fullFetch env db query spec := by
    rcases hreach with ⟨e, he⟩ | ⟨cachedProm, cachedSpec, fixupData, e, h1, h2, h3, h4⟩
    · exact handleRangeRequest_of_miss env db query spec e hspec he
    · rw [handleRangeRequest_of_hit env db query spec cachedSpec cachedProm hspec h1 h2]
      simp [h3, h4]
  rw [hfull, fullFetch_of_ok env db query body spec promData hcache hget hdec]
  by_cases hel : promData.Status = "success" ∧ promData.Data.ResultType = "matrix" ∧
      300 ≤ wrap64 (spec.End - spec.Start)
  · rw [if_pos hel]
    refine ⟨rfl, ⟨fun _ => hel, fun _ => by simp⟩, fun _ => ⟨rfl, rfl⟩,
      fun h => absurd h (by simp), wrap64_of_inRange _, ?_, fun _ _ _ => rfl, ?_⟩
    · intro h
      have h3 := hel.2.2
      rw [h] at h3
      exact absurd h3 (by decide)
    · intro h
      have h2 := hel.2.1
      rw [h] at h2
      exact absurd h2 (by decide)
  · rw [if_neg hel]
    refine ⟨rfl, ⟨fun h => absurd rfl h, fun h => absurd h hel⟩, fun h => absurd rfl h,
      fun _ => rfl, wrap64_of_inRange _, fun _ => rfl, ?_, fun _ => rfl⟩
    intro h h1 h2
    exfalso
    apply hel
    refine ⟨h1, h2, ?_⟩
    rw [h]; decide

theorem write_back_eligibility_witness :
    (handleRangeRequest exampleEnv emptyDB requestURI).inserts
        = [⟨"up", 15000000000, 300, 900, "full"⟩]
      ∧ (handleRangeRequest exampleEnv emptyDB requestURI).db
        = emptyDB.exec ⟨"up", 15000000000, 300, 900, "full"⟩ :=
  (write_back_eligibility exampleEnv emptyDB requestURI "full" requestSpec exampleFull
    rfl (Or.inl ⟨.noRows, rfl⟩) rfl rfl rfl).2.2.1 (by decide)

end Dashcache
